import Mathlib

/-!
Verification of the room lifecycle and phased game state machine of the
NodeServer repository (socket.io server, `server/index.js`), centred on the
spy-game namespace.  JavaScript structures are shallowly embedded:

* JS objects used as string-keyed maps (`room.votes`, `spyRooms`, tallies)
  become insertion-ordered association lists; assignment to an existing key
  updates the value in place (JS objects keep the original key position),
  assignment to a fresh key appends.  Key iteration (`for..in`,
  `Object.values`) follows insertion order, which matches JS semantics for
  the socket-id-shaped string keys used here.
* `setTimeout` / `clearTimeout` become a pool of pending timer records
  tagged with a fresh numeric handle; `clearTimeout h` removes the pending
  record with handle `h`; a timer can fire only while its record is pending.
* `Math.random()`-driven choices (room ids, word pairs, spy index) and
  `Date.now()` become explicit parameters of the handlers.
* A thrown JS exception (TypeError) is modelled by an `Option`-valued
  operation returning `none`.
-/

namespace NodeServer

/-! ## Data model (spy namespace, `server/index.js` lines 264-511) -/

/-- A roster or spectator entry: `{ id: socket.id, username }`. -/
structure Player where
  id : String
  username : String
deriving DecidableEq, Repr

/-- `room.phase`: `"lobby" | "playing" | "voting" | "ended"`.
The spec calls the `playing` phase the discussion phase. -/
inductive Phase
  | lobby
  | playing
  | voting
  | ended
deriving DecidableEq, Repr

/-- An entry of `spyWordPairs`: `{ real, spy }`. -/
structure WordPair where
  real : String
  spy : String
deriving DecidableEq, Repr

/-- The private payload of a `yourCard` emission: `{ type, word }`. -/
structure Card where
  type : String
  word : String
deriving DecidableEq, Repr

/-- `room.timers`: the stored `setTimeout` handles (numeric in the model). -/
structure Timers where
  discussion : Option Nat
  voting : Option Nat
deriving DecidableEq, Repr

/-- Which phase timer a pending timeout belongs to. -/
inductive TKind
  | discussion
  | voting
deriving DecidableEq, Repr

/-- One armed, not-yet-fired, not-yet-cancelled `setTimeout`. -/
structure PendingTimer where
  tid : Nat
  roomId : String
  kind : TKind
deriving DecidableEq, Repr

/-- A spy room record as built by the `createLobby` handler.
`votes` is the JS object `room.votes` (voter id -> target id) as an
insertion-ordered association list. -/
structure Room where
  id : String
  hostId : String
  players : List Player
  spectators : List Player
  spyId : Option String
  pair : WordPair
  round : Nat
  phase : Phase
  votes : List (String × String)
  timers : Timers
  phaseEndsAt : Option Nat
deriving DecidableEq, Repr

/-- The payload of the broadcast `roomState` event (`emitState`). -/
structure RoomSnapshot where
  id : String
  hostId : String
  players : List Player
  spectators : List Player
  phase : Phase
  round : Nat
  phaseEndsAt : Option Nat
deriving DecidableEq, Repr

/-- Server-to-client emissions of the spy namespace.  The first argument is
the socket.io destination: the room channel for broadcasts, a single
socket id for the private `yourCard`. -/
inductive SpyEmit
  | roomState (channel : String) (snap : RoomSnapshot)
  | yourCard (target : String) (card : Card)
  | playerKicked (channel : String) (username : String)
  | gameResult (channel : String) (winner : String) (spy : Option String)
      (kicked : Option String)
deriving DecidableEq, Repr

/-- The global timer pool: pending `setTimeout`s plus a fresh-handle counter. -/
structure TimerCtx where
  pending : List PendingTimer
  next : Nat
deriving DecidableEq, Repr

/-- `const DISCUSSION_TIME = 2 * 60 * 1000`. -/
def DISCUSSION_TIME : Nat := 2 * 60 * 1000

/-- `const VOTING_TIME = 1 * 60 * 1000`. -/
def VOTING_TIME : Nat := 1 * 60 * 1000

/-! ## JS object / truthiness helpers -/

/-- Truthiness of a JS value that is either a string or absent/null:
`undefined`, `null` and `""` are falsy. -/
def jsTruthy : Option String → Bool
  | none => false
  | some s => s ≠ ""

/-- `obj[k] = v` on a string-keyed JS object: updates an existing key in
place (keeping its insertion position) or appends a fresh key. -/
def objSet : List (String × String) → String → String → List (String × String)
  | [], k, v => [(k, v)]
  | (k', v') :: rest, k, v =>
      if k' = k then (k', v) :: rest else (k', v') :: objSet rest k v

/-! ## Vote tallying (`resolveVoting`, lines 329-351)

`Object.values(room.votes).forEach(id => tally[id] = (tally[id] || 0) + 1)`
builds `tally`, then
`for (const id in tally) if (tally[id] > maxVotes) { kickedId = id; ... }`
scans it.  Tally keys appear in order of the first vote cast for each
target. -/

/-- `tally[id] = (tally[id] || 0) + 1` on an association-list tally. -/
def bump : List (String × Nat) → String → List (String × Nat)
  | [], id => [(id, 1)]
  | (k, n) :: rest, id =>
      if k = id then (k, n + 1) :: rest else (k, n) :: bump rest id

/-- Folding the vote targets into a tally, starting from `acc`. -/
def tallyFrom (acc : List (String × Nat)) : List (String × String) → List (String × Nat)
  | [] => acc
  | (_, tgt) :: rest => tallyFrom (bump acc tgt) rest

/-- The tally built by `resolveVoting` from `room.votes`. -/
def tallyOf (votes : List (String × String)) : List (String × Nat) :=
  tallyFrom [] votes

/-- The `for (const id in tally)` selection loop: `kickedId` / `maxVotes`
are replaced only on a strictly greater count. -/
def pickLoop : List (String × Nat) → Option String → Nat → Option String × Nat
  | [], kicked, maxV => (kicked, maxV)
  | (id, n) :: rest, kicked, maxV =>
      if n > maxV then pickLoop rest (some id) n else pickLoop rest kicked maxV

/-- `kickedId` and `maxVotes` after the selection loop (initially
`null` / `0`). -/
def pickKicked (tally : List (String × Nat)) : Option String × Nat :=
  pickLoop tally none 0

/-- The largest count in a tally (`0` for an empty tally). -/
def maxCount : List (String × Nat) → Nat
  | [] => 0
  | (_, n) :: rest => max n (maxCount rest)

/-- The first tally key whose count is exactly `m`. -/
def firstWithCount (m : Nat) : List (String × Nat) → Option String
  | [] => none
  | (k, n) :: rest => if n = m then some k else firstWithCount m rest

/-- The first tally key achieving the maximal count. -/
def firstMaxKey (t : List (String × Nat)) : Option String :=
  firstWithCount (maxCount t) t

/-- Vote count recorded for key `k` (`0` when absent): `tally[k] || 0`. -/
def countOf : List (String × Nat) → String → Nat
  | [], _ => 0
  | (k', n) :: rest, k => if k' = k then n else countOf rest k

/-- Number of votes cast for target `k`. -/
def votesFor (k : String) : List (String × String) → Nat
  | [] => 0
  | (_, tgt) :: rest => (if tgt = k then 1 else 0) + votesFor k rest

/-- Remove every occurrence of `x`. -/
def dropAll (x : String) : List String → List String
  | [] => []
  | y :: rest => if y = x then dropAll x rest else y :: dropAll x rest

/-- Remove every element of `ks`. -/
def dropMem (ks : List String) : List String → List String
  | [] => []
  | y :: rest => if y ∈ ks then dropMem ks rest else y :: dropMem ks rest

/-- The distinct elements of a list in order of first occurrence. -/
def firstOccs : List String → List String
  | [] => []
  | x :: rest => x :: dropAll x (firstOccs rest)

/-! ### Tally lemmas -/

theorem countOf_bump_self (t : List (String × Nat)) (id : String) :
    countOf (bump t id) id = countOf t id + 1 := by
  induction t with
  | nil => simp [bump, countOf]
  | cons p rest ih =>
    obtain ⟨k, n⟩ := p
    by_cases hk : k = id
    · subst hk
      simp [bump, countOf]
    · simp only [bump, if_neg hk, countOf, if_neg hk]
      exact ih


theorem countOf_bump_other (t : List (String × Nat)) (id k : String) (hne : id ≠ k) :
    countOf (bump t id) k = countOf t k := by
  induction t with
  | nil => simp [bump, countOf, hne]
  | cons p rest ih =>
    obtain ⟨k', n⟩ := p
    by_cases hk : k' = id
    · subst hk
      simp [bump, countOf, hne]
    · simp only [bump, if_neg hk, countOf]
      by_cases hkk : k' = k
      · rw [if_pos hkk, if_pos hkk]
      · rw [if_neg hkk, if_neg hkk]
        exact ih

theorem countOf_tallyFrom (votes : List (String × String)) :
    ∀ (acc : List (String × Nat)) (k : String),
      countOf (tallyFrom acc votes) k = countOf acc k + votesFor k votes := by
  induction votes with
  | nil => intro acc k; simp [tallyFrom, votesFor]
  | cons v rest ih =>
    intro acc k
    obtain ⟨voter, tgt⟩ := v
    simp only [tallyFrom, votesFor]
    rw [ih]
    by_cases h : tgt = k
    · subst h
      rw [countOf_bump_self]
      have h1 : (if tgt = tgt then (1 : Nat) else 0) = 1 := by simp
      rw [h1]
      omega
    · rw [countOf_bump_other _ _ _ h, if_neg h]
      omega

/-- The tally computes per-target vote counts. -/
theorem countOf_tallyOf (votes : List (String × String)) (k : String) :
    countOf (tallyOf votes) k = votesFor k votes := by
  rw [tallyOf, countOf_tallyFrom]
  simp [countOf]

theorem maxCount_cons (k : String) (n : Nat) (t : List (String × Nat)) :
    maxCount ((k, n) :: t) = max n (maxCount t) := rfl

/-- Characterisation of the selection loop: it returns the first entry
achieving the overall maximum whenever that maximum beats the incoming
accumulator, and the accumulator unchanged otherwise.  In particular an
entry whose count merely equals the running maximum never replaces the
accumulated candidate. -/
theorem pickLoop_eq (t : List (String × Nat)) :
    ∀ (k : Option String) (m : Nat),
      pickLoop t k m =
        if maxCount t > m then (firstWithCount (maxCount t) t, maxCount t)
        else (k, m) := by
  induction t with
  | nil => intro k m; simp [pickLoop, maxCount]
  | cons p rest ih =>
    intro k m
    obtain ⟨id, n⟩ := p
    rw [maxCount_cons]
    by_cases hn : n > m
    · rw [pickLoop, if_pos hn, ih]
      by_cases hr : maxCount rest > n
      · have hmax : max n (maxCount rest) = maxCount rest := by omega
        rw [if_pos hr, hmax, if_pos (by omega), firstWithCount,
          if_neg (by omega : ¬ n = maxCount rest)]
      · have hmax : max n (maxCount rest) = n := by omega
        rw [if_neg hr, hmax, if_pos hn, firstWithCount, if_pos rfl]
    · rw [pickLoop, if_neg hn, ih]
      by_cases hr : maxCount rest > m
      · have hmax : max n (maxCount rest) = maxCount rest := by omega
        rw [if_pos hr, hmax, if_pos (by omega), firstWithCount,
          if_neg (by omega : ¬ n = maxCount rest)]
      · have hmm : ¬ (max n (maxCount rest) > m) := by omega
        rw [if_neg hr, if_neg hmm]

/-- `bump` never lowers a count below `1`. -/
theorem bump_counts_pos (acc : List (String × Nat)) (id : String)
    (hacc : ∀ p ∈ acc, 1 ≤ p.2) : ∀ p ∈ bump acc id, 1 ≤ p.2 := by
  induction acc with
  | nil => intro q hq; simp [bump] at hq; simp [hq]
  | cons a as ih =>
    obtain ⟨ka, na⟩ := a
    intro q hq
    by_cases hk : ka = id
    · subst hk
      simp [bump] at hq
      rcases hq with hq | hq
      · simp [hq]
      · exact hacc q (List.mem_cons_of_mem _ hq)
    · simp only [bump, if_neg hk] at hq
      rcases List.mem_cons.mp hq with hq | hq
      · exact hacc q (by simp [hq])
      · exact ih (fun r hr => hacc r (List.mem_cons_of_mem _ hr)) q hq

/-- Every count appearing in a tally is at least `1`. -/
theorem tally_counts_pos (votes : List (String × String)) :
    ∀ (acc : List (String × Nat)), (∀ p ∈ acc, 1 ≤ p.2) →
      ∀ p ∈ tallyFrom acc votes, 1 ≤ p.2 := by
  induction votes with
  | nil => intro acc hacc p hp; exact hacc p hp
  | cons v rest ih =>
    intro acc hacc p hp
    obtain ⟨voter, tgt⟩ := v
    exact ih (bump acc tgt) (bump_counts_pos acc tgt hacc) p hp

theorem maxCount_pos_of_mem {t : List (String × Nat)} {p : String × Nat}
    (hp : p ∈ t) (hpos : 1 ≤ p.2) : 1 ≤ maxCount t := by
  induction t with
  | nil => cases hp
  | cons q rest ih =>
    obtain ⟨kq, nq⟩ := q
    rw [maxCount_cons]
    rcases List.mem_cons.mp hp with h | h
    · subst h; simp at hpos ⊢; omega
    · have := ih h; omega

/-- The keys of `bump t id` are the keys of `t`, with `id` appended when
fresh. -/
theorem keys_bump (t : List (String × Nat)) (id : String) :
    (bump t id).map Prod.fst =
      if id ∈ t.map Prod.fst then t.map Prod.fst else t.map Prod.fst ++ [id] := by
  induction t with
  | nil => simp [bump]
  | cons p rest ih =>
    obtain ⟨k, n⟩ := p
    by_cases hk : k = id
    · subst hk
      simp [bump]
    · have hne : ¬ id = k := fun h => hk h.symm
      simp only [bump, if_neg hk, List.map_cons, List.mem_cons, hne, false_or]
      rw [ih]
      by_cases hmem : id ∈ rest.map Prod.fst
      · simp [hmem]
      · simp [hmem]

theorem dropAll_idem (x : String) (l : List String) :
    dropAll x (dropAll x l) = dropAll x l := by
  induction l with
  | nil => rfl
  | cons y rest ih =>
    by_cases hy : y = x
    · simp [dropAll, hy, ih]
    · simp [dropAll, hy, ih]

theorem dropAll_comm (a b : String) (l : List String) :
    dropAll a (dropAll b l) = dropAll b (dropAll a l) := by
  induction l with
  | nil => rfl
  | cons y rest ih =>
    by_cases hb : y = b
    · subst hb
      by_cases ha : y = a
      · subst ha
        simp [dropAll, ih]
      · simp [dropAll, ha, ih]
    · by_cases ha : y = a
      · subst ha
        simp [dropAll, hb, ih]
      · simp [dropAll, ha, hb, ih]

theorem firstOccs_dropAll (x : String) (l : List String) :
    firstOccs (dropAll x l) = dropAll x (firstOccs l) := by
  induction l with
  | nil => rfl
  | cons y rest ih =>
    by_cases hy : y = x
    · subst hy
      simp [dropAll, firstOccs, ih, dropAll_idem]
    · simp [dropAll, hy, firstOccs, ih, dropAll_comm]

theorem dropMem_append_singleton (ks : List String) (tgt : String) (l : List String) :
    dropMem (ks ++ [tgt]) l = dropAll tgt (dropMem ks l) := by
  induction l with
  | nil => rfl
  | cons y rest ih =>
    by_cases h1 : y ∈ ks
    · have : y ∈ ks ++ [tgt] := by simp [h1]
      simp [dropMem, h1, this, ih]
    · by_cases h2 : y = tgt
      · subst h2
        have hm : y ∈ ks ++ [y] := by simp
        simp [dropMem, h1, hm, ih, dropAll]
      · have hm : ¬ y ∈ ks ++ [tgt] := by simp [h1, h2]
        simp [dropMem, h1, h2, hm, ih, dropAll]

theorem keys_tallyFrom (votes : List (String × String)) :
    ∀ (acc : List (String × Nat)),
      (tallyFrom acc votes).map Prod.fst =
        acc.map Prod.fst ++ firstOccs (dropMem (acc.map Prod.fst) (votes.map Prod.snd)) := by
  induction votes with
  | nil => intro acc; simp [tallyFrom, firstOccs, dropMem]
  | cons v rest ih =>
    intro acc
    obtain ⟨voter, tgt⟩ := v
    simp only [tallyFrom, List.map_cons]
    rw [ih, keys_bump]
    by_cases hmem : tgt ∈ acc.map Prod.fst
    · rw [if_pos hmem]
      simp only [dropMem, if_pos hmem]
    · rw [if_neg hmem]
      simp only [dropMem, if_neg hmem]
      rw [dropMem_append_singleton, firstOccs, firstOccs_dropAll]
      simp

theorem dropMem_nil (l : List String) : dropMem [] l = l := by
  induction l with
  | nil => rfl
  | cons y rest ih => simp [dropMem, ih]

/-- Tally keys are the vote targets in order of each target's earliest
cast vote. -/
theorem keys_tallyOf (votes : List (String × String)) :
    (tallyOf votes).map Prod.fst = firstOccs (votes.map Prod.snd) := by
  rw [tallyOf, keys_tallyFrom]
  simp [dropMem_nil]

/-! ## Room operations (spy namespace) -/

/-- `clearTimers(room)` (lines 283-288): `clearTimeout` whichever handles
the room holds, then null both fields. -/
def clearTimers (r : Room) (c : TimerCtx) : Room × TimerCtx :=
  let pending := c.pending.filter (fun e =>
    decide (r.timers.discussion ≠ some e.tid ∧ r.timers.voting ≠ some e.tid))
  ({ r with timers := ⟨none, none⟩ }, { c with pending := pending })

/-- The public payload built by `emitState` (lines 290-300). -/
def snapshotOf (r : Room) : RoomSnapshot :=
  { id := r.id, hostId := r.hostId, players := r.players,
    spectators := r.spectators, phase := r.phase, round := r.round,
    phaseEndsAt := r.phaseEndsAt }

/-- `emitState(room)`: broadcast the public snapshot to the room channel. -/
def emitState (r : Room) : List SpyEmit :=
  [SpyEmit.roomState r.id (snapshotOf r)]

/-- `setTimeout(cb, delay)`: allocate a fresh handle and arm it for the
given room and phase kind. -/
def setTimer (c : TimerCtx) (rid : String) (k : TKind) : Nat × TimerCtx :=
  (c.next, { pending := c.pending ++ [⟨c.next, rid, k⟩], next := c.next + 1 })

/-- `startDiscussion(room)` (lines 302-313). -/
def startDiscussion (now : Nat) (r : Room) (c : TimerCtx) :
    Room × TimerCtx × List SpyEmit :=
  let rc := clearTimers r c
  let r := { rc.1 with phase := Phase.playing,
                       phaseEndsAt := some (now + DISCUSSION_TIME) }
  let es := emitState r
  let tc := setTimer rc.2 r.id TKind.discussion
  ({ r with timers := { r.timers with discussion := some tc.1 } }, tc.2, es)

/-- `startVoting(room)` (lines 315-327): clears the vote object before the
voting phase begins. -/
def startVoting (now : Nat) (r : Room) (c : TimerCtx) :
    Room × TimerCtx × List SpyEmit :=
  let rc := clearTimers r c
  let r := { rc.1 with phase := Phase.voting, votes := [],
                       phaseEndsAt := some (now + VOTING_TIME) }
  let es := emitState r
  let tc := setTimer rc.2 r.id TKind.voting
  ({ r with timers := { r.timers with voting := some tc.1 } }, tc.2, es)

/-- `endGame(room, winner, kickedId)` (lines 379-396). -/
def endGame (now : Nat) (winner : String) (kickedId : Option String)
    (r : Room) (c : TimerCtx) : Room × TimerCtx × List SpyEmit :=
  let rc := clearTimers r c
  let r := { rc.1 with phase := Phase.ended, phaseEndsAt := some now }
  let all := r.players ++ r.spectators
  let spyName := (all.find? (fun p => some p.id = r.spyId)).map Player.username
  let kickedName :=
    if jsTruthy kickedId then
      (all.find? (fun p => some p.id = kickedId)).map Player.username
    else none
  (r, rc.2, SpyEmit.gameResult r.id winner spyName kickedName :: emitState r)

/-- `resolveVoting(room)` (lines 329-377): tally, pick the kicked id, and
branch.  Returns `none` exactly when the JS code throws a `TypeError`
(reading `kickedPlayer.username` when `find` returned `undefined`, i.e. the
selected target is not a roster member). -/
def resolveVoting (now : Nat) (r : Room) (c : TimerCtx) :
    Option (Room × TimerCtx × List SpyEmit) :=
  let rc := clearTimers r c
  let r := rc.1
  let c := rc.2
  let kicked := pickKicked (tallyOf r.votes)
  if jsTruthy kicked.1 then
    -- truthy, hence `some kid` with `kid ≠ ""`
    let kid := kicked.1.getD ""
    if some kid = r.spyId then some (endGame now "players" (some kid) r c)
    else
      match r.players.find? (fun p => p.id = kid) with
      | none => none
      | some kickedPlayer =>
        let r := { r with players := r.players.filter (fun p => p.id ≠ kid),
                          spectators := r.spectators ++ [kickedPlayer] }
        let es := [SpyEmit.playerKicked r.id kickedPlayer.username]
        if r.players.length = 2 then
          let out := endGame now "spy" none r c
          some (out.1, out.2.1, es ++ out.2.2)
        else
          let r := { r with round := r.round + 1 }
          let out := startDiscussion now r c
          some (out.1, out.2.1, es ++ out.2.2)
  else
    -- `if (!kickedId)`: no votes (or only falsy keys) → spy survives
    some (endGame now "spy" none r c)

/-! ## C1: vote tally determinism and earliest-max tie-break -/

/-- C1: when the voting timer fires, `resolveVoting` computes per-target
vote counts (`countOf`/`votesFor`), the tally lists targets in order of
their earliest cast vote (`firstOccs` of the targets in insertion order),
and the selection loop picks the first target achieving the maximal count:
a candidate already holding the maximum is never replaced by a later
candidate with an equal count. -/
theorem tally_selects_earliest_max (votes : List (String × String)) :
    (∀ k, countOf (tallyOf votes) k = votesFor k votes) ∧
    (tallyOf votes).map Prod.fst = firstOccs (votes.map Prod.snd) ∧
    pickKicked (tallyOf votes) =
      (firstMaxKey (tallyOf votes), maxCount (tallyOf votes)) := by
  refine ⟨fun k => countOf_tallyOf votes k, keys_tallyOf votes, ?_⟩
  by_cases h : maxCount (tallyOf votes) > 0
  · rw [pickKicked, pickLoop_eq, if_pos h, firstMaxKey]
  · have h0 : maxCount (tallyOf votes) = 0 := by omega
    cases ht : tallyOf votes with
    | nil =>
      rw [pickKicked]
      simp [pickLoop, firstMaxKey, firstWithCount, maxCount]
    | cons p rest =>
      exfalso
      have hp : 1 ≤ p.2 := by
        refine tally_counts_pos votes [] (by intro q hq; cases hq) p ?_
        rw [show tallyFrom [] votes = tallyOf votes from rfl, ht]
        exact List.mem_cons_self p rest
      have := maxCount_pos_of_mem
        (t := p :: rest) (List.mem_cons_self p rest) hp
      rw [ht] at h0
      omega

/-! ## Server state and socket handlers (spy namespace) -/

/-- Global mutable state of the spy namespace: the `spyRooms` table (JS
object, insertion ordered), each connected socket's `socket.data.roomId`,
and the timer pool. -/
structure Server where
  rooms : List Room
  socks : List (String × Option String)
  tctx : TimerCtx
deriving DecidableEq, Repr

/-- `spyRooms[rid]` (string-keyed object read). -/
def getRoom : List Room → String → Option Room
  | [], _ => none
  | r :: rest, rid => if r.id = rid then some r else getRoom rest rid

/-- `spyRooms[r.id] = r`: update in place or append a fresh key. -/
def setRoom : List Room → Room → List Room
  | [], r => [r]
  | x :: xs, r => if x.id = r.id then r :: xs else x :: setRoom xs r

/-- `delete spyRooms[rid]`. -/
def delRoom (rooms : List Room) (rid : String) : List Room :=
  rooms.filter (fun r => r.id ≠ rid)

/-- `socket.data.roomId = v`. -/
def setSock : List (String × Option String) → String → Option String →
    List (String × Option String)
  | [], sid, v => [(sid, v)]
  | (sid', v') :: rest, sid, v =>
      if sid' = sid then (sid', v) :: rest else (sid', v') :: setSock rest sid v

/-- Read a socket's stored `data.roomId` from the socket table. -/
def sockGet : List (String × Option String) → String → Option String
  | [], _ => none
  | (k, v) :: rest, sid => if k = sid then v else sockGet rest sid

/-- `socket.data.roomId` (null when never set). -/
def sockRoomId (s : Server) (sid : String) : Option String :=
  sockGet s.socks sid

/-- `spyRooms[socket.data.roomId]`: the room a handler operates on. -/
def currentRoom (s : Server) (sid : String) : Option Room :=
  match sockRoomId s sid with
  | none => none
  | some rid => getRoom s.rooms rid

/-- `createLobby` handler (lines 403-426).  `rid` is the random
`makeRoomId()` outcome and `pair` the random word-pair draw. -/
def createLobby (s : Server) (sid rid uname : String) (pair : WordPair) :
    Server × List SpyEmit :=
  let room : Room :=
    { id := rid, hostId := sid, players := [⟨sid, uname⟩], spectators := [],
      spyId := none, pair := pair, round := 1, phase := Phase.lobby,
      votes := [], timers := ⟨none, none⟩, phaseEndsAt := none }
  ({ s with rooms := setRoom s.rooms room,
            socks := setSock s.socks sid (some rid) },
   emitState room)

/-- `joinLobby` handler (lines 429-441). -/
def joinLobby (s : Server) (sid rid uname : String) : Server × List SpyEmit :=
  match getRoom s.rooms rid with
  | none => (s, [])
  | some room =>
    if room.phase ≠ Phase.lobby then (s, [])
    else
      let room := { room with players := room.players ++ [⟨sid, uname⟩] }
      ({ s with rooms := setRoom s.rooms room,
                socks := setSock s.socks sid (some rid) },
       emitState room)

/-- `startGame` handler (lines 444-463).  `spyIndex` is the random
`Math.floor(Math.random() * room.players.length)` outcome. -/
def startGame (now : Nat) (s : Server) (sid : String) (spyIndex : Nat) :
    Server × List SpyEmit :=
  match currentRoom s sid with
  | none => (s, [])
  | some room =>
    if sid ≠ room.hostId then (s, [])
    else if room.players.length < 3 then (s, [])
    else
      match room.players.get? spyIndex with
      | none => (s, [])
      | some spyP =>
        let room := { room with spyId := some spyP.id }
        let cards := room.players.map (fun p =>
          SpyEmit.yourCard p.id
            (if p.id = spyP.id then ⟨"spy", room.pair.spy⟩
             else ⟨"real", room.pair.real⟩))
        let out := startDiscussion now room s.tctx
        ({ s with rooms := setRoom s.rooms out.1, tctx := out.2.1 },
         cards ++ out.2.2)

/-- `castVote` handler (lines 466-473): requires voting phase and a roster
voter, rejects a second (truthy) vote, but records any `targetId`. -/
def castVote (s : Server) (sid targetId : String) : Server :=
  match currentRoom s sid with
  | none => s
  | some room =>
    if room.phase ≠ Phase.voting then s
    else if (room.players.find? (fun p => p.id = sid)).isNone then s
    else if jsTruthy (room.votes.lookup sid) then s
    else
      let room := { room with votes := objSet room.votes sid targetId }
      { s with rooms := setRoom s.rooms room }

/-- `resetGame` handler (lines 476-494).  `pair` is the fresh random
word-pair draw. -/
def resetGame (s : Server) (sid : String) (pair : WordPair) :
    Server × List SpyEmit :=
  match currentRoom s sid with
  | none => (s, [])
  | some room =>
    if sid ≠ room.hostId then (s, [])
    else
      let rc := clearTimers room s.tctx
      let room := { rc.1 with
        players := rc.1.players ++ rc.1.spectators, spectators := [],
        spyId := none, round := 1, phase := Phase.lobby, votes := [],
        phaseEndsAt := none, pair := pair }
      ({ s with rooms := setRoom s.rooms room, tctx := rc.2 }, emitState room)

/-- `disconnect` handler (lines 496-510). -/
def disconnect (s : Server) (sid : String) : Server × List SpyEmit :=
  match currentRoom s sid with
  | none => (s, [])
  | some room =>
    let room := { room with
      players := room.players.filter (fun p => p.id ≠ sid),
      spectators := room.spectators.filter (fun p => p.id ≠ sid) }
    if room.players.length = 0 ∧ room.spectators.length = 0 then
      let rc := clearTimers room s.tctx
      ({ s with rooms := delRoom s.rooms room.id, tctx := rc.2 }, [])
    else
      ({ s with rooms := setRoom s.rooms room }, emitState room)

/-- A pending `setTimeout` fires: the entry leaves the pool and its
callback (`startVoting` / `resolveVoting` on the captured room) runs.
Returns `none` when the callback throws (crashing the process).  The
room lookup by id stands for the closure's captured room reference; under
`timerInv` (proved below) the room always exists. -/
def fireTimer (now : Nat) (s : Server) (tid : Nat) :
    Option (Server × List SpyEmit) :=
  match s.tctx.pending.find? (fun e => e.tid = tid) with
  | none => none
  | some e =>
    let c : TimerCtx :=
      { s.tctx with pending := s.tctx.pending.filter (fun x => x.tid ≠ tid) }
    match getRoom s.rooms e.roomId with
    | none => some ({ s with tctx := c }, [])
    | some room =>
      match e.kind with
      | TKind.discussion =>
        let out := startVoting now room c
        some ({ s with rooms := setRoom s.rooms out.1, tctx := out.2.1 },
          out.2.2)
      | TKind.voting =>
        match resolveVoting now room c with
        | none => none
        | some out =>
          some ({ s with rooms := setRoom s.rooms out.1, tctx := out.2.1 },
            out.2.2)

/-! ## Name storage (C8)

The spy handlers store `username` as supplied.  The standalone live-dots
server (`server/live-dots-server/index.js`) stores
`(username || 'Guest').slice(0, 24)`. -/

/-- JS `a || d` for strings: `""` falls back to the default. -/
def jsOr (s d : String) : String := if s = "" then d else s

/-- JS `String.prototype.slice(0, n)` (non-negative `n`). -/
def strSlice (s : String) (n : Nat) : String := String.mk (s.data.take n)

/-- The display name the live-dots `createRoom`/`joinRoom` handlers store:
`(username || 'Guest').slice(0, 24)`. -/
def storedCursorName (username : String) : String :=
  strSlice (jsOr username "Guest") 24

/-- The display name the spy `createLobby` handler stores for the creator,
read back from the room table of a fresh server. -/
def spyStoredName (username : String) : String :=
  let s0 : Server := { rooms := [], socks := [], tctx := ⟨[], 0⟩ }
  match getRoom (createLobby s0 "s1" "r1" username ⟨"Airport", "Bus Station"⟩).1.rooms "r1" with
  | some room =>
    match room.players with
    | p :: _ => p.username
    | [] => ""
  | none => ""

/-! ## C5: zero votes at voting timeout -/

/-- C5: if the voting timer fires with zero votes recorded, the room
transitions to `ended` with the spy as winner (`gameResult` broadcast with
winner `"spy"` and no kicked participant) and the roster and spectator
lists are unchanged. -/
theorem resolveVoting_no_votes_spy_wins (now : Nat) (r : Room) (c : TimerCtx)
    (h : r.votes = []) :
    ∃ r2 c2 es, resolveVoting now r c = some (r2, c2, es) ∧
      r2.phase = Phase.ended ∧ r2.players = r.players ∧
      r2.spectators = r.spectators ∧
      ∃ sn, es.head? = some (SpyEmit.gameResult r.id "spy" sn none) := by
  obtain ⟨rid, rhost, rpl, rspec, rspy, rpair, rround, rphase, rvotes,
    rtimers, rend⟩ := r
  simp only at h
  subst h
  exact ⟨_, _, _, rfl, rfl, rfl, rfl, _, rfl⟩

/-- Concrete voting-phase room with an empty vote object. -/
def exRoomC5 : Room :=
  { id := "r1", hostId := "s1",
    players := [⟨"s1", "a"⟩, ⟨"s2", "b"⟩, ⟨"s3", "c"⟩],
    spectators := [], spyId := some "s1", pair := ⟨"Airport", "Bus Station"⟩,
    round := 1, phase := Phase.voting, votes := [],
    timers := ⟨none, some 1⟩, phaseEndsAt := some 100 }

theorem resolveVoting_no_votes_spy_wins_witness :
    ∃ r2 c2 es,
      resolveVoting 7 exRoomC5 ⟨[⟨1, "r1", TKind.voting⟩], 2⟩ =
        some (r2, c2, es) ∧
      r2.phase = Phase.ended ∧ r2.players = exRoomC5.players ∧
      r2.spectators = exRoomC5.spectators ∧
      ∃ sn, es.head? = some (SpyEmit.gameResult exRoomC5.id "spy" sn none) :=
  resolveVoting_no_votes_spy_wins 7 exRoomC5 ⟨[⟨1, "r1", TKind.voting⟩], 2⟩ rfl

/-! ## C4: eliminating a non-spy target -/

/-- C4 (amended): if vote resolution eliminates a non-spy roster target,
then with exactly 2 roster members left after removal the game ends with
the spy winning; otherwise the round increments by 1, the eliminated
player moves from roster to spectators and a discussion phase starts with
a fresh timer.  The vote object is NOT cleared on re-entering discussion:
it retains the finished phase's votes and is cleared only when the next
voting phase starts (`startVoting`). -/
theorem resolveVoting_nonspy_elimination (now : Nat) (r : Room) (c : TimerCtx)
    (kid : String) (kp : Player)
    (hpick : (pickKicked (tallyOf r.votes)).1 = some kid)
    (hk : kid ≠ "")
    (hspy : ¬ some kid = r.spyId)
    (hfind : r.players.find? (fun p => p.id = kid) = some kp) :
    ((r.players.filter (fun p => p.id ≠ kid)).length = 2 →
      ∃ r2 c2 es, resolveVoting now r c = some (r2, c2, es) ∧
        r2.phase = Phase.ended ∧
        es.head? = some (SpyEmit.playerKicked r.id kp.username) ∧
        ∃ sn, es.tail.head? = some (SpyEmit.gameResult r.id "spy" sn none)) ∧
    ((r.players.filter (fun p => p.id ≠ kid)).length ≠ 2 →
      ∃ r2 c2 es, resolveVoting now r c = some (r2, c2, es) ∧
        r2.phase = Phase.playing ∧ r2.round = r.round + 1 ∧
        r2.players = r.players.filter (fun p => p.id ≠ kid) ∧
        r2.spectators = r.spectators ++ [kp] ∧
        r2.votes = r.votes ∧
        ∃ t, r2.timers.discussion = some t ∧
          PendingTimer.mk t r.id TKind.discussion ∈ c2.pending) ∧
    (∀ (now2 : Nat) (r3 : Room) (c3 : TimerCtx),
      ((startVoting now2 r3 c3).1).votes = []) := by
  obtain ⟨rid, rhost, rpl, rspec, rspy, rpair, rround, rphase, rvotes,
    rtimers, rend⟩ := r
  simp only at hpick hspy hfind ⊢
  have htr : jsTruthy (some kid) = true := by simp [jsTruthy, hk]
  refine ⟨?_, ?_, fun now2 r3 c3 => rfl⟩
  · intro hlen
    simp only [resolveVoting, clearTimers, hpick, htr, if_true,
      Option.getD_some, hfind]
    rw [if_neg hspy, if_pos hlen]
    exact ⟨_, _, _, rfl, rfl, rfl, _, rfl⟩
  · intro hlen
    simp only [resolveVoting, clearTimers, hpick, htr, if_true,
      Option.getD_some, hfind]
    rw [if_neg hspy, if_neg hlen]
    refine ⟨_, _, _, rfl, rfl, rfl, rfl, rfl, rfl, _, rfl, ?_⟩
    simp [startDiscussion, setTimer, clearTimers]

/-- Concrete 4-player voting round: one vote for the non-spy `s4`. -/
def exRoomC4 : Room :=
  { id := "r1", hostId := "s1",
    players := [⟨"s1", "a"⟩, ⟨"s2", "b"⟩, ⟨"s3", "c"⟩, ⟨"s4", "d"⟩],
    spectators := [], spyId := some "s1", pair := ⟨"Airport", "Bus Station"⟩,
    round := 1, phase := Phase.voting, votes := [("s2", "s4")],
    timers := ⟨none, some 0⟩, phaseEndsAt := some 0 }

/-- C4 counterexample: after eliminating non-spy `s4` with 3 roster members
left, the room re-enters discussion (round 2) but the vote object still
holds the previous phase's vote, contradicting the claimed empty tally. -/
theorem resolveVoting_votes_not_cleared_cx :
    ∃ r2 c2 es,
      resolveVoting 0 exRoomC4 ⟨[⟨0, "r1", TKind.voting⟩], 1⟩ =
        some (r2, c2, es) ∧
      r2.phase = Phase.playing ∧ r2.round = 2 ∧
      r2.players = [⟨"s1", "a"⟩, ⟨"s2", "b"⟩, ⟨"s3", "c"⟩] ∧
      r2.spectators = [⟨"s4", "d"⟩] ∧
      r2.votes = [("s2", "s4")] :=
  ⟨_, _, _, rfl, rfl, rfl, rfl, rfl, rfl⟩

/-- Concrete room used to witness `resolveVoting_nonspy_elimination`. -/
def exCtxC4 : TimerCtx := ⟨[⟨0, "r1", TKind.voting⟩], 1⟩

theorem resolveVoting_nonspy_elimination_witness :
    ((exRoomC4.players.filter (fun p => p.id ≠ "s4")).length = 2 →
      ∃ r2 c2 es, resolveVoting 0 exRoomC4 exCtxC4 = some (r2, c2, es) ∧
        r2.phase = Phase.ended ∧
        es.head? = some (SpyEmit.playerKicked exRoomC4.id
          (Player.mk "s4" "d").username) ∧
        ∃ sn, es.tail.head? =
          some (SpyEmit.gameResult exRoomC4.id "spy" sn none)) ∧
    ((exRoomC4.players.filter (fun p => p.id ≠ "s4")).length ≠ 2 →
      ∃ r2 c2 es, resolveVoting 0 exRoomC4 exCtxC4 = some (r2, c2, es) ∧
        r2.phase = Phase.playing ∧ r2.round = exRoomC4.round + 1 ∧
        r2.players = exRoomC4.players.filter (fun p => p.id ≠ "s4") ∧
        r2.spectators = exRoomC4.spectators ++ [Player.mk "s4" "d"] ∧
        r2.votes = exRoomC4.votes ∧
        ∃ t, r2.timers.discussion = some t ∧
          PendingTimer.mk t exRoomC4.id TKind.discussion ∈ c2.pending) ∧
    (∀ (now2 : Nat) (r3 : Room) (c3 : TimerCtx),
      ((startVoting now2 r3 c3).1).votes = []) :=
  resolveVoting_nonspy_elimination 0 exRoomC4 exCtxC4 "s4" (Player.mk "s4" "d")
    (by decide) (by decide) (by decide) (by decide)

/-! ## C6: vote resolution throws on an unvalidated target -/

/-- Reachable voting-phase room (timer handle `0` armed). -/
def exRoomC6 : Room :=
  { id := "r1", hostId := "s1",
    players := [⟨"s1", "a"⟩, ⟨"s2", "b"⟩, ⟨"s3", "c"⟩],
    spectators := [], spyId := some "s1", pair := ⟨"Airport", "Bus Station"⟩,
    round := 1, phase := Phase.voting, votes := [],
    timers := ⟨none, some 0⟩, phaseEndsAt := some 0 }

/-- C6 (code bug): `castVote` records the unvalidated target `"ghost"`;
when the voting timer fires, `resolveVoting` selects `"ghost"`, `find`
returns `undefined`, and reading `kickedPlayer.username` throws a
`TypeError` (modelled as `none`), contradicting the no-crash guarantee. -/
theorem resolveVoting_throws_on_bogus_target :
    (let s0 : Server :=
      { rooms := [exRoomC6],
        socks := [("s1", some "r1"), ("s2", some "r1"), ("s3", some "r1")],
        tctx := ⟨[⟨0, "r1", TKind.voting⟩], 1⟩ }
     fireTimer 60000 (castVote s0 "s2" "ghost") 0) = none := rfl

/-! ## C8: display-name truncation -/

/-- The spy `createLobby` handler stores the supplied username unchanged. -/
theorem spyStoredName_eq (uname : String) : spyStoredName uname = uname := rfl

/-- C8 counterexample: there is no constant bounding the stored display
name length across the room-creating handlers: the spy `createLobby`
stores the username verbatim, so for every candidate bound `N` a username
of length `N + 1` is stored with length `N + 1`. -/
theorem spy_name_unbounded_cx :
    ¬ ∃ N, ∀ uname : String, (spyStoredName uname).length ≤ N := by
  rintro ⟨N, h⟩
  have hs := h (String.mk (List.replicate (N + 1) 'a'))
  rw [spyStoredName_eq] at hs
  have hlen : (String.mk (List.replicate (N + 1) 'a')).length = N + 1 := by
    show (List.replicate (N + 1) 'a').length = N + 1
    simp
  rw [hlen] at hs
  omega

/-- C8 (amended): only the standalone live-dots server truncates display
names -- `(username || 'Guest').slice(0, 24)` is bounded by 24 characters
-- while the spy `createLobby`/`joinLobby` handlers store the supplied
username unmodified (unbounded). -/
theorem name_truncation_split :
    (∀ uname : String, (storedCursorName uname).length ≤ 24) ∧
    (∀ uname : String, spyStoredName uname = uname) := by
  constructor
  · intro u
    show ((jsOr u "Guest").data.take 24).length ≤ 24
    rw [List.length_take]
    omega
  · intro u
    rfl

/-! ## C7: one room membership per connection -/

theorem getRoom_id (rooms : List Room) (rid : String) (r : Room)
    (h : getRoom rooms rid = some r) : r.id = rid := by
  induction rooms with
  | nil => cases h
  | cons y ys ih =>
    simp only [getRoom] at h
    by_cases hy : y.id = rid
    · rw [if_pos hy] at h
      cases h
      exact hy
    · rw [if_neg hy] at h
      exact ih h

theorem getRoom_setRoom (rooms : List Room) (r : Room) (x : String) :
    getRoom (setRoom rooms r) x = if r.id = x then some r else getRoom rooms x := by
  induction rooms with
  | nil => rfl
  | cons y ys ih =>
    simp only [setRoom]
    by_cases hy : y.id = r.id
    · rw [if_pos hy]
      by_cases hx : r.id = x
      · simp [getRoom, hx]
      · have hyx : ¬ y.id = x := by rw [hy]; exact hx
        simp [getRoom, hx, hyx]
    · rw [if_neg hy]
      by_cases hyx : y.id = x
      · have hrx : ¬ r.id = x := by
          intro hh
          exact hy (by rw [hyx, hh])
        simp [getRoom, hyx, hrx]
      · simp [getRoom, hyx, ih]

theorem sockGet_setSock (l : List (String × Option String)) (sid : String)
    (v : Option String) (x : String) :
    sockGet (setSock l sid v) x = if sid = x then v else sockGet l x := by
  induction l with
  | nil => rfl
  | cons e rest ih =>
    obtain ⟨k, w⟩ := e
    simp only [setSock]
    by_cases hk : k = sid
    · rw [if_pos hk]
      by_cases hx : sid = x
      · have hkx : k = x := by rw [hk, hx]
        simp [sockGet, hkx, hx]
      · have hkx : ¬ k = x := by rw [hk]; exact hx
        simp [sockGet, hx, hkx]
    · rw [if_neg hk]
      by_cases hkx : k = x
      · have hsx : ¬ sid = x := by
          intro hh
          exact hk (by rw [hkx, hh])
        simp [sockGet, hkx, hsx]
      · simp [sockGet, hkx, ih]

/-- C7 (amended): `joinLobby` keeps the per-connection current-room
pointer single-valued (`socket.data.roomId` is overwritten with the newly
joined room) but leaves every other room's participant lists untouched, so
a connection already on another room's roster stays registered there: the
connection can be a roster member of two rooms at once. -/
theorem join_keeps_stale_membership (s : Server) (sid rid uname : String)
    (room : Room) (hroom : getRoom s.rooms rid = some room)
    (hphase : room.phase = Phase.lobby) :
    sockRoomId (joinLobby s sid rid uname).1 sid = some rid ∧
    (∀ rid2, rid2 ≠ rid →
      getRoom ((joinLobby s sid rid uname).1).rooms rid2 = getRoom s.rooms rid2) ∧
    (∃ room2, getRoom ((joinLobby s sid rid uname).1).rooms rid = some room2 ∧
      sid ∈ room2.players.map Player.id) := by
  have hid : room.id = rid := getRoom_id s.rooms rid room hroom
  have hphase2 : ¬ room.phase ≠ Phase.lobby := by simp [hphase]
  simp only [joinLobby, hroom, if_neg hphase2]
  refine ⟨?_, ?_, ?_⟩
  · simp [sockRoomId, sockGet_setSock]
  · intro rid2 hne
    rw [getRoom_setRoom]
    have : ¬ ({ room with players := room.players ++ [⟨sid, uname⟩] } : Room).id = rid2 := by
      simp only
      rw [hid]
      exact fun hh => hne hh.symm
    rw [if_neg this]
  · refine ⟨{ room with players := room.players ++ [⟨sid, uname⟩] }, ?_, ?_⟩
    · rw [getRoom_setRoom]
      rw [if_pos (show ({ room with
          players := room.players ++ [⟨sid, uname⟩] } : Room).id = rid from hid)]
    · simp

/-- Fresh spy server after `createLobby("s1","r1")` and
`createLobby("s2","r2")`. -/
def exS7 : Server :=
  (createLobby (createLobby ⟨[], [], ⟨[], 0⟩⟩ "s1" "r1" "alice"
      ⟨"Airport", "Bus Station"⟩).1
    "s2" "r2" "bob" ⟨"Hospital", "Clinic"⟩).1

/-- The room record `r2` holds inside `exS7`. -/
def exRoomR2 : Room :=
  { id := "r2", hostId := "s2", players := [⟨"s2", "bob"⟩], spectators := [],
    spyId := none, pair := ⟨"Hospital", "Clinic"⟩, round := 1,
    phase := Phase.lobby, votes := [], timers := ⟨none, none⟩,
    phaseEndsAt := none }

theorem join_keeps_stale_membership_witness :
    sockRoomId (joinLobby exS7 "s1" "r2" "alice").1 "s1" = some "r2" ∧
    (∀ rid2, rid2 ≠ "r2" →
      getRoom ((joinLobby exS7 "s1" "r2" "alice").1).rooms rid2 =
        getRoom exS7.rooms rid2) ∧
    (∃ room2, getRoom ((joinLobby exS7 "s1" "r2" "alice").1).rooms "r2" =
        some room2 ∧ "s1" ∈ room2.players.map Player.id) :=
  join_keeps_stale_membership exS7 "s1" "r2" "alice" exRoomR2 rfl rfl

/-- Roster-or-spectator membership of a connection in a given room. -/
def memberOf (s : Server) (sid rid : String) : Bool :=
  match getRoom s.rooms rid with
  | none => false
  | some r => (r.players ++ r.spectators).any (fun p => p.id = sid)

/-- The server after `s1` (already host and roster member of `r1`) also
joins `r2`. -/
def exServerC7 : Server := (joinLobby exS7 "s1" "r2" "alice").1

/-- C7 counterexample: after creating room `r1` and then joining room
`r2`, connection `s1` is registered in the participant lists of both
rooms at once, refuting the at-most-one-membership claim. -/
theorem dual_membership_cx :
    memberOf exServerC7 "s1" "r1" = true ∧
    memberOf exServerC7 "s1" "r2" = true := ⟨rfl, rfl⟩

/-! ## C10: a departed host is never replaced -/

theorem not_mem_filter_ne (l : List Player) (sid : String) :
    sid ∉ (l.filter (fun p => p.id ≠ sid)).map Player.id := by
  intro h
  obtain ⟨p, hp, hid⟩ := List.mem_map.mp h
  have h2 := (List.mem_filter.mp hp).2
  simp at h2
  exact h2 hid

/-- `startGame` from a non-host socket mutates nothing and emits nothing. -/
theorem startGame_nonhost_noop (now : Nat) (s : Server) (sid : String)
    (idx : Nat) (room : Room) (hcur : currentRoom s sid = some room)
    (h : sid ≠ room.hostId) :
    startGame now s sid idx = (s, []) := by
  simp only [startGame, hcur]
  rw [if_pos h]

/-- `resetGame` from a non-host socket mutates nothing and emits nothing. -/
theorem resetGame_nonhost_noop (s : Server) (sid : String) (pair : WordPair)
    (room : Room) (hcur : currentRoom s sid = some room)
    (h : sid ≠ room.hostId) :
    resetGame s sid pair = (s, []) := by
  simp only [resetGame, hcur]
  rw [if_pos h]

/-- C10: if the host of a spy room disconnects while other participants
remain, the room keeps `hostId` pointing at the departed connection (which
is no longer on the roster or spectator list), and `startGame`/`resetGame`
are no-ops for every other connection whose current room is this room. -/
theorem host_disconnect_orphans_room (s : Server) (sid rid : String)
    (room : Room)
    (hsock : sockRoomId s sid = some rid)
    (hroom : getRoom s.rooms rid = some room)
    (hhost : room.hostId = sid)
    (hstay : ¬ ((room.players.filter (fun p => p.id ≠ sid)).length = 0 ∧
                (room.spectators.filter (fun p => p.id ≠ sid)).length = 0)) :
    ∃ room2, getRoom ((disconnect s sid).1).rooms rid = some room2 ∧
      room2.hostId = sid ∧
      sid ∉ room2.players.map Player.id ∧
      sid ∉ room2.spectators.map Player.id ∧
      (∀ (now : Nat) (sid2 : String) (idx : Nat) (pair2 : WordPair)
          (room3 : Room), sid2 ≠ sid →
        currentRoom (disconnect s sid).1 sid2 = some room3 →
        room3.hostId = sid →
        startGame now (disconnect s sid).1 sid2 idx = ((disconnect s sid).1, []) ∧
        resetGame (disconnect s sid).1 sid2 pair2 = ((disconnect s sid).1, [])) := by
  have hid : room.id = rid := getRoom_id s.rooms rid room hroom
  have hcur : currentRoom s sid = some room := by
    simp only [currentRoom, hsock, hroom]
  simp only [disconnect, hcur, if_neg hstay]
  refine ⟨{ room with
      players := room.players.filter (fun p => p.id ≠ sid),
      spectators := room.spectators.filter (fun p => p.id ≠ sid) },
    ?_, hhost, not_mem_filter_ne _ _, not_mem_filter_ne _ _, ?_⟩
  · rw [getRoom_setRoom]
    rw [if_pos (show ({ room with
        players := room.players.filter (fun p => p.id ≠ sid),
        spectators := room.spectators.filter (fun p => p.id ≠ sid) } : Room).id
      = rid from hid)]
  · intro now sid2 idx pair2 room3 hne hcur3 hh3
    have hne3 : sid2 ≠ room3.hostId := by rw [hh3]; exact hne
    exact ⟨startGame_nonhost_noop now _ sid2 idx room3 hcur3 hne3,
           resetGame_nonhost_noop _ sid2 pair2 room3 hcur3 hne3⟩

/-- Three-member lobby room whose host is `s1`. -/
def exRoom10 : Room :=
  { id := "r1", hostId := "s1",
    players := [⟨"s1", "a"⟩, ⟨"s2", "b"⟩, ⟨"s3", "c"⟩], spectators := [],
    spyId := none, pair := ⟨"Airport", "Bus Station"⟩, round := 1,
    phase := Phase.lobby, votes := [], timers := ⟨none, none⟩,
    phaseEndsAt := none }

/-- Server holding `exRoom10` with all three sockets pointing at it. -/
def exS10 : Server :=
  { rooms := [exRoom10],
    socks := [("s1", some "r1"), ("s2", some "r1"), ("s3", some "r1")],
    tctx := ⟨[], 0⟩ }

theorem host_disconnect_orphans_room_witness :
    ∃ room2, getRoom ((disconnect exS10 "s1").1).rooms "r1" = some room2 ∧
      room2.hostId = "s1" ∧
      "s1" ∉ room2.players.map Player.id ∧
      "s1" ∉ room2.spectators.map Player.id ∧
      (∀ (now : Nat) (sid2 : String) (idx : Nat) (pair2 : WordPair)
          (room3 : Room), sid2 ≠ "s1" →
        currentRoom (disconnect exS10 "s1").1 sid2 = some room3 →
        room3.hostId = "s1" →
        startGame now (disconnect exS10 "s1").1 sid2 idx =
          ((disconnect exS10 "s1").1, []) ∧
        resetGame (disconnect exS10 "s1").1 sid2 pair2 =
          ((disconnect exS10 "s1").1, [])) :=
  host_disconnect_orphans_room exS10 "s1" "r1" exRoom10 rfl rfl rfl
    (by decide)

/-! ## C2: public snapshot / private card separation -/

/-- C2: the broadcast `roomState` payload is independent of the secret
fields (`spyId`, the drawn word pair, the vote mapping) -- so it can leak
none of them -- and every private `yourCard` emission of `startGame` is
addressed to the id of the roster participant whose card it carries. -/
theorem snapshot_and_cards_no_leak :
    (∀ (r : Room) (sp : Option String) (pr : WordPair)
        (vs : List (String × String)),
      snapshotOf { r with spyId := sp, pair := pr, votes := vs } =
        snapshotOf r) ∧
    (∀ (now : Nat) (s : Server) (sid : String) (idx : Nat) (tgt : String)
        (card : Card),
      SpyEmit.yourCard tgt card ∈ (startGame now s sid idx).2 →
      ∃ room spyP, currentRoom s sid = some room ∧
        room.players.get? idx = some spyP ∧
        ∃ p ∈ room.players, tgt = p.id ∧
          card = (if p.id = spyP.id then ⟨"spy", room.pair.spy⟩
                  else ⟨"real", room.pair.real⟩)) := by
  constructor
  · intro r sp pr vs
    rfl
  · intro now s sid idx tgt card hmem
    cases hcur : currentRoom s sid with
    | none =>
      simp only [startGame, hcur] at hmem
      simp at hmem
    | some room =>
      simp only [startGame, hcur] at hmem
      by_cases hh : sid ≠ room.hostId
      · rw [if_pos hh] at hmem
        simp at hmem
      · rw [if_neg hh] at hmem
        by_cases hl : room.players.length < 3
        · rw [if_pos hl] at hmem
          simp at hmem
        · rw [if_neg hl] at hmem
          cases hget : room.players.get? idx with
          | none =>
            rw [hget] at hmem
            simp at hmem
          | some spyP =>
            rw [hget] at hmem
            refine ⟨room, spyP, rfl, hget, ?_⟩
            rcases List.mem_append.mp hmem with hm | hm
            · obtain ⟨p, hp, heq⟩ := List.mem_map.mp hm
              simp only [SpyEmit.yourCard.injEq] at heq
              exact ⟨p, hp, heq.1.symm, heq.2.symm⟩
            · exfalso
              simp [startDiscussion, emitState, setTimer, clearTimers] at hm

/-- Room differing from `exRoom10` in every secret field. -/
def exRoom10b : Room :=
  { exRoom10 with
    spyId := some "zzz"
    pair := ⟨"Beach", "Desert"⟩
    votes := [("s2", "s3")] }

theorem snapshot_and_cards_no_leak_witness :
    snapshotOf exRoom10b = snapshotOf exRoom10 ∧
    (∃ room spyP, currentRoom exS10 "s1" = some room ∧
      room.players.get? 0 = some spyP ∧
      ∃ p ∈ room.players, "s1" = p.id ∧
        (Card.mk "spy" "Bus Station") =
          (if p.id = spyP.id then ⟨"spy", room.pair.spy⟩
           else ⟨"real", room.pair.real⟩)) :=
  ⟨snapshot_and_cards_no_leak.1 exRoom10 (some "zzz") ⟨"Beach", "Desert"⟩
      [("s2", "s3")],
   snapshot_and_cards_no_leak.2 0 exS10 "s1" 0 "s1" (Card.mk "spy" "Bus Station")
      (by decide)⟩

/-! ## C3: startGame guards and card assignment -/

/-- Is an emission a `yourCard` of type `"spy"`? -/
def isSpyCard : SpyEmit → Bool
  | SpyEmit.yourCard _ c => c.type = "spy"
  | _ => false

/-- Is an emission a `yourCard` of type `"real"`? -/
def isRealCard : SpyEmit → Bool
  | SpyEmit.yourCard _ c => c.type = "real"
  | _ => false

theorem countP_id_eq_one (l : List Player) (q : Player)
    (hnd : (l.map Player.id).Nodup) (hm : q ∈ l) :
    l.countP (fun p => p.id = q.id) = 1 := by
  induction l with
  | nil => cases hm
  | cons a rest ih =>
    rw [List.map_cons, List.nodup_cons] at hnd
    rcases List.mem_cons.mp hm with h | h
    · subst h
      rw [List.countP_cons]
      have h0 : rest.countP (fun p => p.id = q.id) = 0 := by
        rw [List.countP_eq_zero]
        intro p hp
        simp only [decide_eq_true_eq]
        intro hip
        exact hnd.1 (hip ▸ List.mem_map_of_mem Player.id hp)
      simp [h0]
    · rw [List.countP_cons, ih hnd.2 h]
      have hne : ¬ (a.id = q.id) := by
        intro hh
        exact hnd.1 (hh ▸ List.mem_map_of_mem Player.id h)
      simp [hne]

theorem countP_split (l : List Player) (q : Player) :
    l.countP (fun p => p.id = q.id) + l.countP (fun p => p.id ≠ q.id) =
      l.length := by
  have h1 : l.countP (fun p => p.id ≠ q.id) =
      l.countP (fun a => decide ¬(decide (a.id = q.id) = true)) := by
    apply List.countP_congr
    intro a _
    simp
  rw [h1]
  exact (List.length_eq_countP_add_countP
    (fun p => decide (p.id = q.id)) l).symm

/-- C3: `startGame` is a no-op unless the caller is the host of its
current room with roster size at least 3; on success exactly one roster
participant (the randomly indexed spy) receives a `spy` card carrying the
decoy word, every other roster participant receives a `real` card carrying
the shared word, and the room enters the discussion phase (`playing`) with
a discussion timer armed. -/
theorem startGame_spec (now : Nat) (s : Server) (sid : String) (idx : Nat) :
    ((currentRoom s sid = none → startGame now s sid idx = (s, [])) ∧
     (∀ room, currentRoom s sid = some room → sid ≠ room.hostId →
        startGame now s sid idx = (s, [])) ∧
     (∀ room, currentRoom s sid = some room → room.players.length < 3 →
        startGame now s sid idx = (s, []))) ∧
    (∀ room spyP, currentRoom s sid = some room → sid = room.hostId →
      3 ≤ room.players.length → room.players.get? idx = some spyP →
      (room.players.map Player.id).Nodup →
      (startGame now s sid idx).2.countP isSpyCard = 1 ∧
      SpyEmit.yourCard spyP.id ⟨"spy", room.pair.spy⟩ ∈
        (startGame now s sid idx).2 ∧
      (∀ p ∈ room.players, p.id ≠ spyP.id →
        SpyEmit.yourCard p.id ⟨"real", room.pair.real⟩ ∈
          (startGame now s sid idx).2) ∧
      (startGame now s sid idx).2.countP isRealCard =
        room.players.length - 1 ∧
      (∃ room2, getRoom ((startGame now s sid idx).1).rooms room.id =
          some room2 ∧
        room2.phase = Phase.playing ∧
        ∃ t, room2.timers.discussion = some t ∧
          PendingTimer.mk t room.id TKind.discussion ∈
            ((startGame now s sid idx).1).tctx.pending)) := by
  refine ⟨⟨?_, ?_, ?_⟩, ?_⟩
  · intro h
    simp only [startGame, h]
  · intro room hcur hne
    simp only [startGame, hcur]
    rw [if_pos hne]
  · intro room hcur hlen
    simp only [startGame, hcur]
    by_cases hh : sid ≠ room.hostId
    · rw [if_pos hh]
    · rw [if_neg hh, if_pos hlen]
  · intro room spyP hcur hhost hlen hget hnd
    have hsp : spyP ∈ room.players := List.get?_mem hget
    have hne : ¬ sid ≠ room.hostId := by simp [hhost]
    have hnl : ¬ room.players.length < 3 := by omega
    simp only [startGame, hcur, if_neg hne, if_neg hnl, hget]
    have hcards : ∀ p : Player,
        isSpyCard (SpyEmit.yourCard p.id
          (if p.id = spyP.id then Card.mk "spy" room.pair.spy
           else Card.mk "real" room.pair.real)) =
        decide (p.id = spyP.id) := by
      intro p
      by_cases hp : p.id = spyP.id
      · simp [isSpyCard, hp]
      · simp [isSpyCard, hp]
    have hcardr : ∀ p : Player,
        isRealCard (SpyEmit.yourCard p.id
          (if p.id = spyP.id then Card.mk "spy" room.pair.spy
           else Card.mk "real" room.pair.real)) =
        decide (p.id ≠ spyP.id) := by
      intro p
      by_cases hp : p.id = spyP.id
      · simp [isRealCard, hp]
      · simp [isRealCard, hp]
    refine ⟨?_, ?_, ?_, ?_, ?_⟩
    · rw [List.countP_append, List.countP_map]
      have h1 : room.players.countP
          (isSpyCard ∘ fun p => SpyEmit.yourCard p.id
            (if p.id = spyP.id then Card.mk "spy" room.pair.spy
             else Card.mk "real" room.pair.real)) =
          room.players.countP (fun p => p.id = spyP.id) := by
        apply List.countP_congr
        intro p _
        simp only [Function.comp]
        rw [hcards p]
      rw [h1, countP_id_eq_one room.players spyP hnd hsp]
      rfl
    · apply List.mem_append_left
      have := List.mem_map_of_mem (fun p => SpyEmit.yourCard p.id
        (if p.id = spyP.id then Card.mk "spy" room.pair.spy
         else Card.mk "real" room.pair.real)) hsp
      simpa using this
    · intro p hp hpne
      apply List.mem_append_left
      have := List.mem_map_of_mem (fun p => SpyEmit.yourCard p.id
        (if p.id = spyP.id then Card.mk "spy" room.pair.spy
         else Card.mk "real" room.pair.real)) hp
      simpa [hpne] using this
    · rw [List.countP_append, List.countP_map]
      have h1 : room.players.countP
          (isRealCard ∘ fun p => SpyEmit.yourCard p.id
            (if p.id = spyP.id then Card.mk "spy" room.pair.spy
             else Card.mk "real" room.pair.real)) =
          room.players.countP (fun p => p.id ≠ spyP.id) := by
        apply List.countP_congr
        intro p _
        simp only [Function.comp]
        rw [hcardr p]
      rw [h1]
      have h2 := countP_split room.players spyP
      have h3 := countP_id_eq_one room.players spyP hnd hsp
      have h4 : ((startDiscussion now { room with spyId := some spyP.id }
          s.tctx).2.2).countP isRealCard = 0 := rfl
      omega
    · refine ⟨(startDiscussion now { room with spyId := some spyP.id }
          s.tctx).1, ?_, rfl,
        ((clearTimers { room with spyId := some spyP.id } s.tctx).2).next,
        rfl, ?_⟩
      · rw [getRoom_setRoom]
        rw [if_pos (show ((startDiscussion now
            { room with spyId := some spyP.id } s.tctx).1).id = room.id
          from rfl)]
      · simp [startDiscussion, setTimer, clearTimers]

theorem startGame_spec_witness :
    ((currentRoom exS10 "s1" = none → startGame 9 exS10 "s1" 0 = (exS10, [])) ∧
     (∀ room, currentRoom exS10 "s1" = some room → "s1" ≠ room.hostId →
        startGame 9 exS10 "s1" 0 = (exS10, [])) ∧
     (∀ room, currentRoom exS10 "s1" = some room → room.players.length < 3 →
        startGame 9 exS10 "s1" 0 = (exS10, []))) ∧
    (∀ room spyP, currentRoom exS10 "s1" = some room → "s1" = room.hostId →
      3 ≤ room.players.length → room.players.get? 0 = some spyP →
      (room.players.map Player.id).Nodup →
      (startGame 9 exS10 "s1" 0).2.countP isSpyCard = 1 ∧
      SpyEmit.yourCard spyP.id ⟨"spy", room.pair.spy⟩ ∈
        (startGame 9 exS10 "s1" 0).2 ∧
      (∀ p ∈ room.players, p.id ≠ spyP.id →
        SpyEmit.yourCard p.id ⟨"real", room.pair.real⟩ ∈
          (startGame 9 exS10 "s1" 0).2) ∧
      (startGame 9 exS10 "s1" 0).2.countP isRealCard =
        room.players.length - 1 ∧
      (∃ room2, getRoom ((startGame 9 exS10 "s1" 0).1).rooms room.id =
          some room2 ∧
        room2.phase = Phase.playing ∧
        ∃ t, room2.timers.discussion = some t ∧
          PendingTimer.mk t room.id TKind.discussion ∈
            ((startGame 9 exS10 "s1" 0).1).tctx.pending)) :=
  startGame_spec 9 exS10 "s1" 0

/-! ## C9: timer cancellation discipline

`timerOk` states that a pending `setTimeout` refers to an existing room
that still holds its handle and is still in the phase the timer was armed
for; `timerInv` holds for every pending timer.  The invariant is preserved
by every handler and timer callback, and `clearTimers` runs before every
room deletion and reset, emptying the room's pending timers, so a stale
timer for a deleted or reset room can never fire. -/

/-- A pending timer is consistent: its room exists, still stores this
handle, and is in the phase the timer drives forward. -/
def timerOk (rooms : List Room) (e : PendingTimer) : Bool :=
  match getRoom rooms e.roomId, e.kind with
  | none, _ => false
  | some r, TKind.discussion =>
      decide (r.timers.discussion = some e.tid) &&
      decide (r.phase = Phase.playing)
  | some r, TKind.voting =>
      decide (r.timers.voting = some e.tid) &&
      decide (r.phase = Phase.voting)

/-- Every pending timer of the server is consistent. -/
def timerInv (s : Server) : Prop :=
  ∀ e ∈ s.tctx.pending, timerOk s.rooms e = true

theorem currentRoom_getRoom (s : Server) (sid : String) (room : Room)
    (h : currentRoom s sid = some room) :
    getRoom s.rooms room.id = some room := by
  unfold currentRoom at h
  cases hs : sockRoomId s sid with
  | none => rw [hs] at h; cases h
  | some rid =>
    rw [hs] at h
    rw [getRoom_id s.rooms rid room h]
    exact h

/-- A consistent pending timer whose handle the room no longer stores
cannot belong to that room. -/
theorem pending_not_for_room (rooms : List Room) (room : Room)
    (hg : getRoom rooms room.id = some room) (e : PendingTimer)
    (hold : timerOk rooms e = true)
    (hcl : room.timers.discussion ≠ some e.tid ∧
           room.timers.voting ≠ some e.tid) :
    e.roomId ≠ room.id := by
  intro hh
  have hgx : getRoom rooms e.roomId = some room := by rw [hh]; exact hg
  obtain ⟨etid, erid, ekind⟩ := e
  simp only at hgx hcl
  cases ekind
  · simp [timerOk, hgx] at hold
    exact hcl.1 (by rw [hold.1])
  · simp [timerOk, hgx] at hold
    exact hcl.2 (by rw [hold.1])

/-- Replacing one room preserves consistency of a pending timer whose
handle the replaced room no longer stores (it belongs to another room). -/
theorem timerOk_survivor (rooms : List Room) (room room2 : Room)
    (hg : getRoom rooms room.id = some room)
    (hid : room2.id = room.id) (e : PendingTimer)
    (hold : timerOk rooms e = true)
    (hcl : room.timers.discussion ≠ some e.tid ∧
           room.timers.voting ≠ some e.tid) :
    timerOk (setRoom rooms room2) e = true := by
  have hne := pending_not_for_room rooms room hg e hold hcl
  have hx : ¬ room2.id = e.roomId := by
    rw [hid]
    exact fun hh => hne hh.symm
  have h2 : getRoom (setRoom rooms room2) e.roomId = getRoom rooms e.roomId := by
    rw [getRoom_setRoom, if_neg hx]
  obtain ⟨etid, erid, ekind⟩ := e
  simp only [timerOk] at hold ⊢
  rw [h2]
  exact hold

theorem getRoom_delRoom (rooms : List Room) (rid x : String) :
    getRoom (delRoom rooms rid) x = if x = rid then none else getRoom rooms x := by
  induction rooms with
  | nil =>
    show (none : Option Room) = if x = rid then none else none
    by_cases h : x = rid
    · rw [if_pos h]
    · rw [if_neg h]
  | cons y ys ih =>
    simp only [delRoom] at ih ⊢
    rw [List.filter_cons]
    by_cases hy : y.id = rid
    · rw [if_neg (show ¬ (decide (y.id ≠ rid) = true) by simp [hy])]
      rw [ih]
      by_cases hx : x = rid
      · rw [if_pos hx, if_pos hx]
      · have hyx : ¬ y.id = x := by
          rw [hy]
          exact fun hh => hx hh.symm
        rw [if_neg hx, if_neg hx]
        show getRoom ys x = getRoom (y :: ys) x
        rw [getRoom, if_neg hyx]
    · rw [if_pos (show (decide (y.id ≠ rid) = true) by simp [hy])]
      rw [getRoom]
      by_cases hyx : y.id = x
      · have hx : ¬ x = rid := by
          rw [← hyx]
          exact hy
        rw [if_pos hyx, if_neg hx]
        show (some y : Option Room) = getRoom (y :: ys) x
        rw [getRoom, if_pos hyx]
      · rw [if_neg hyx, ih]
        by_cases hx : x = rid
        · rw [if_pos hx, if_pos hx]
        · rw [if_neg hx, if_neg hx]
          show getRoom ys x = getRoom (y :: ys) x
          rw [getRoom, if_neg hyx]

/-- Deleting a room preserves consistency of a pending timer whose handle
the deleted room no longer stores. -/
theorem timerOk_deleted (rooms : List Room) (room : Room)
    (hg : getRoom rooms room.id = some room) (e : PendingTimer)
    (hold : timerOk rooms e = true)
    (hcl : room.timers.discussion ≠ some e.tid ∧
           room.timers.voting ≠ some e.tid) :
    timerOk (delRoom rooms room.id) e = true := by
  have hne := pending_not_for_room rooms room hg e hold hcl
  have h2 : getRoom (delRoom rooms room.id) e.roomId = getRoom rooms e.roomId := by
    rw [getRoom_delRoom, if_neg hne]
  obtain ⟨etid, erid, ekind⟩ := e
  simp only [timerOk] at hold ⊢
  rw [h2]
  exact hold

/-- Replacing a room with one of identical timers and phase preserves
consistency of every pending timer. -/
theorem timerOk_same_phase (rooms : List Room) (room room2 : Room)
    (hg : getRoom rooms room.id = some room)
    (hid : room2.id = room.id) (ht : room2.timers = room.timers)
    (hp : room2.phase = room.phase)
    (e : PendingTimer) (hold : timerOk rooms e = true) :
    timerOk (setRoom rooms room2) e = true := by
  obtain ⟨etid, erid, ekind⟩ := e
  by_cases hx : room2.id = erid
  · have hgx : getRoom rooms erid = some room := by rw [← hx, hid]; exact hg
    have hgx2 : getRoom (setRoom rooms room2) erid = some room2 := by
      rw [getRoom_setRoom, if_pos hx]
    cases ekind
    · simp [timerOk, hgx] at hold
      simp [timerOk, hgx2, ht, hp]
      exact hold
    · simp [timerOk, hgx] at hold
      simp [timerOk, hgx2, ht, hp]
      exact hold
  · have h2 : getRoom (setRoom rooms room2) erid = getRoom rooms erid := by
      rw [getRoom_setRoom, if_neg hx]
    simp only [timerOk] at hold ⊢
    rw [h2]
    exact hold

/-- A freshly armed timer on the freshly stored room is consistent. -/
theorem timerOk_new_entry (rooms : List Room) (room2 : Room) (tid : Nat)
    (k : TKind)
    (hdisc : k = TKind.discussion →
      room2.timers.discussion = some tid ∧ room2.phase = Phase.playing)
    (hvote : k = TKind.voting →
      room2.timers.voting = some tid ∧ room2.phase = Phase.voting) :
    timerOk (setRoom rooms room2) ⟨tid, room2.id, k⟩ = true := by
  have hg : getRoom (setRoom rooms room2) room2.id = some room2 := by
    rw [getRoom_setRoom, if_pos rfl]
  cases k
  · simp [timerOk, hg, (hdisc rfl).1, (hdisc rfl).2]
  · simp [timerOk, hg, (hvote rfl).1, (hvote rfl).2]

/-- `setRoom` does not affect lookups of other room ids. -/
theorem getRoom_setRoom_ne (rooms : List Room) (r : Room) (x : String)
    (h : ¬ r.id = x) : getRoom (setRoom rooms r) x = getRoom rooms x := by
  rw [getRoom_setRoom, if_neg h]

/-- Survivors of the `endGame` path stay consistent when the finished
room is stored back. -/
theorem timerInv_endGame_out (now : Nat) (w : String) (kid : Option String)
    (s : Server) (room : Room) (r1 : Room) (c1 : TimerCtx)
    (hsub : ∀ e, e ∈ c1.pending →
      e ∈ s.tctx.pending ∧
        (room.timers.discussion ≠ some e.tid ∧
         room.timers.voting ≠ some e.tid))
    (hg : getRoom s.rooms room.id = some room)
    (hid : r1.id = room.id)
    (hinv : timerInv s) :
    ∀ e ∈ (endGame now w kid r1 c1).2.1.pending,
      timerOk (setRoom s.rooms (endGame now w kid r1 c1).1) e = true := by
  intro e he
  simp only [endGame, clearTimers] at he ⊢
  have hmem := List.mem_of_mem_filter he
  obtain ⟨hms, hcl⟩ := hsub e hmem
  refine timerOk_survivor s.rooms room _ hg ?_ e (hinv e hms) hcl
  exact hid

/-- Survivors of `startDiscussion` stay consistent and the freshly armed
discussion timer is consistent. -/
theorem timerInv_startDiscussion_out (now : Nat) (s : Server) (room : Room)
    (r1 : Room) (c1 : TimerCtx)
    (hsub : ∀ e, e ∈ c1.pending →
      r1.timers.discussion ≠ some e.tid → r1.timers.voting ≠ some e.tid →
      e ∈ s.tctx.pending ∧
        (room.timers.discussion ≠ some e.tid ∧
         room.timers.voting ≠ some e.tid))
    (hg : getRoom s.rooms room.id = some room)
    (hid : r1.id = room.id)
    (hinv : timerInv s) :
    ∀ e ∈ (startDiscussion now r1 c1).2.1.pending,
      timerOk (setRoom s.rooms (startDiscussion now r1 c1).1) e = true := by
  intro e he
  simp only [startDiscussion, setTimer, clearTimers] at he ⊢
  rcases List.mem_append.mp he with hm | hm
  · have hmem := List.mem_filter.mp hm
    have hpred := of_decide_eq_true hmem.2
    obtain ⟨hms, hcl⟩ := hsub e hmem.1 hpred.1 hpred.2
    refine timerOk_survivor s.rooms room _ hg ?_ e (hinv e hms) hcl
    exact hid
  · rw [List.mem_singleton] at hm
    subst hm
    refine timerOk_new_entry s.rooms _ c1.next TKind.discussion ?_ ?_
    · exact fun _ => ⟨rfl, rfl⟩
    · exact fun hh => TKind.noConfusion hh

/-- Survivors of `startVoting` stay consistent and the freshly armed
voting timer is consistent. -/
theorem timerInv_startVoting_out (now : Nat) (s : Server) (room : Room)
    (r1 : Room) (c1 : TimerCtx)
    (hsub : ∀ e, e ∈ c1.pending →
      r1.timers.discussion ≠ some e.tid → r1.timers.voting ≠ some e.tid →
      e ∈ s.tctx.pending ∧
        (room.timers.discussion ≠ some e.tid ∧
         room.timers.voting ≠ some e.tid))
    (hg : getRoom s.rooms room.id = some room)
    (hid : r1.id = room.id)
    (hinv : timerInv s) :
    ∀ e ∈ (startVoting now r1 c1).2.1.pending,
      timerOk (setRoom s.rooms (startVoting now r1 c1).1) e = true := by
  intro e he
  simp only [startVoting, setTimer, clearTimers] at he ⊢
  rcases List.mem_append.mp he with hm | hm
  · have hmem := List.mem_filter.mp hm
    have hpred := of_decide_eq_true hmem.2
    obtain ⟨hms, hcl⟩ := hsub e hmem.1 hpred.1 hpred.2
    refine timerOk_survivor s.rooms room _ hg ?_ e (hinv e hms) hcl
    exact hid
  · rw [List.mem_singleton] at hm
    subst hm
    refine timerOk_new_entry s.rooms _ c1.next TKind.voting ?_ ?_
    · exact fun hh => TKind.noConfusion hh
    · exact fun _ => ⟨rfl, rfl⟩

theorem timerInv_createLobby (s : Server) (sid rid uname : String)
    (pair : WordPair) (hfresh : getRoom s.rooms rid = none)
    (hinv : timerInv s) : timerInv (createLobby s sid rid uname pair).1 := by
  intro e he
  have hok := hinv e he
  by_cases hx : rid = e.roomId
  · exfalso
    have hnone : getRoom s.rooms e.roomId = none := by
      rw [← hx]
      exact hfresh
    obtain ⟨etid, erid, ekind⟩ := e
    simp only at hnone
    cases ekind <;> simp [timerOk, hnone] at hok
  · have h2 : getRoom ((createLobby s sid rid uname pair).1).rooms e.roomId =
        getRoom s.rooms e.roomId := by
      show getRoom (setRoom s.rooms _) e.roomId = getRoom s.rooms e.roomId
      exact getRoom_setRoom_ne s.rooms _ e.roomId hx
    obtain ⟨etid, erid, ekind⟩ := e
    simp only at h2
    simp only [timerOk] at hok ⊢
    rw [h2]
    exact hok

theorem timerInv_joinLobby (s : Server) (sid rid uname : String)
    (hinv : timerInv s) : timerInv (joinLobby s sid rid uname).1 := by
  intro e he
  cases hroom : getRoom s.rooms rid with
  | none =>
    simp only [joinLobby, hroom] at he ⊢
    exact hinv e he
  | some room =>
    by_cases hph : room.phase ≠ Phase.lobby
    · simp only [joinLobby, hroom, if_pos hph] at he ⊢
      exact hinv e he
    · simp only [joinLobby, hroom, if_neg hph] at he ⊢
      have hg : getRoom s.rooms room.id = some room := by
        rw [getRoom_id s.rooms rid room hroom]
        exact hroom
      refine timerOk_same_phase s.rooms room _ hg ?_ ?_ ?_ e (hinv e he)
      · rfl
      · rfl
      · rfl

theorem timerInv_castVote (s : Server) (sid tgt : String)
    (hinv : timerInv s) : timerInv (castVote s sid tgt) := by
  intro e he
  cases hcur : currentRoom s sid with
  | none =>
    simp only [castVote, hcur] at he ⊢
    exact hinv e he
  | some room =>
    by_cases h1 : room.phase ≠ Phase.voting
    · simp only [castVote, hcur, if_pos h1] at he ⊢
      exact hinv e he
    · by_cases h2 : (room.players.find? (fun p => p.id = sid)).isNone = true
      · simp only [castVote, hcur, if_neg h1, if_pos h2] at he ⊢
        exact hinv e he
      · by_cases h3 : jsTruthy (room.votes.lookup sid) = true
        · simp only [castVote, hcur, if_neg h1, if_neg h2, if_pos h3] at he ⊢
          exact hinv e he
        · simp only [castVote, hcur, if_neg h1, if_neg h2, if_neg h3] at he ⊢
          have hg := currentRoom_getRoom s sid room hcur
          refine timerOk_same_phase s.rooms room _ hg ?_ ?_ ?_ e (hinv e he)
          · rfl
          · rfl
          · rfl

theorem timerInv_startGame (now : Nat) (s : Server) (sid : String) (idx : Nat)
    (hinv : timerInv s) : timerInv (startGame now s sid idx).1 := by
  intro e he
  cases hcur : currentRoom s sid with
  | none =>
    simp only [startGame, hcur] at he ⊢
    exact hinv e he
  | some room =>
    simp only [startGame, hcur] at he ⊢
    by_cases h1 : sid ≠ room.hostId
    · rw [if_pos h1] at he ⊢
      exact hinv e he
    · rw [if_neg h1] at he ⊢
      by_cases h2 : room.players.length < 3
      · rw [if_pos h2] at he ⊢
        exact hinv e he
      · rw [if_neg h2] at he ⊢
        cases hget : room.players.get? idx with
        | none =>
          rw [hget] at he
          exact hinv e he
        | some spyP =>
          rw [hget] at he
          have hg := currentRoom_getRoom s sid room hcur
          refine timerInv_startDiscussion_out now s room _ s.tctx ?_ hg ?_
            hinv e he
          · exact fun e2 he2 hd hv => ⟨he2, hd, hv⟩
          · rfl

theorem timerInv_resetGame (s : Server) (sid : String) (pair : WordPair)
    (hinv : timerInv s) : timerInv (resetGame s sid pair).1 := by
  intro e he
  cases hcur : currentRoom s sid with
  | none =>
    simp only [resetGame, hcur] at he ⊢
    exact hinv e he
  | some room =>
    by_cases hh : sid ≠ room.hostId
    · simp only [resetGame, hcur, if_pos hh] at he ⊢
      exact hinv e he
    · simp only [resetGame, hcur, if_neg hh, clearTimers] at he ⊢
      have hmem := List.mem_filter.mp he
      have hcl := of_decide_eq_true hmem.2
      have hg := currentRoom_getRoom s sid room hcur
      refine timerOk_survivor s.rooms room _ hg ?_ e (hinv e hmem.1) hcl
      rfl

theorem timerInv_disconnect (s : Server) (sid : String)
    (hinv : timerInv s) : timerInv (disconnect s sid).1 := by
  intro e he
  cases hcur : currentRoom s sid with
  | none =>
    simp only [disconnect, hcur] at he ⊢
    exact hinv e he
  | some room =>
    have hg := currentRoom_getRoom s sid room hcur
    simp only [disconnect, hcur] at he ⊢
    by_cases hdel :
        (room.players.filter (fun p => p.id ≠ sid)).length = 0 ∧
        (room.spectators.filter (fun p => p.id ≠ sid)).length = 0
    · rw [if_pos hdel] at he ⊢
      simp only [clearTimers] at he ⊢
      have hmem := List.mem_filter.mp he
      have hcl := of_decide_eq_true hmem.2
      exact timerOk_deleted s.rooms room hg e (hinv e hmem.1) hcl
    · rw [if_neg hdel] at he ⊢
      refine timerOk_same_phase s.rooms room _ hg ?_ ?_ ?_ e (hinv e he)
      · rfl
      · rfl
      · rfl

/-- Consistency is preserved along every branch of `resolveVoting`. -/
theorem timerInv_resolveVoting (now : Nat) (s : Server) (room : Room)
    (c : TimerCtx) (out : Room × TimerCtx × List SpyEmit)
    (hsubc : ∀ e, e ∈ c.pending → e ∈ s.tctx.pending)
    (hg : getRoom s.rooms room.id = some room)
    (hres : resolveVoting now room c = some out)
    (hinv : timerInv s) :
    ∀ e ∈ out.2.1.pending, timerOk (setRoom s.rooms out.1) e = true := by
  simp only [resolveVoting, clearTimers] at hres
  have hsub : ∀ (e : PendingTimer),
      e ∈ (c.pending.filter (fun e =>
        decide (room.timers.discussion ≠ some e.tid ∧
                room.timers.voting ≠ some e.tid))) →
      e ∈ s.tctx.pending ∧
        (room.timers.discussion ≠ some e.tid ∧
         room.timers.voting ≠ some e.tid) := by
    intro e2 he2
    have hmem := List.mem_filter.mp he2
    exact ⟨hsubc e2 hmem.1, of_decide_eq_true hmem.2⟩
  split at hres
  · split at hres
    · cases hres
      intro e he
      refine timerInv_endGame_out now "players" _ s room _ _ ?_ hg ?_
        hinv e he
      · exact hsub
      · rfl
    · split at hres
      · cases hres
      · split at hres
        · cases hres
          intro e he
          refine timerInv_endGame_out now "spy" none s room _ _ ?_ hg ?_
            hinv e he
          · exact hsub
          · rfl
        · cases hres
          intro e he
          refine timerInv_startDiscussion_out now s room _ _ ?_ hg ?_
            hinv e he
          · exact fun e2 he2 _ _ => hsub e2 he2
          · rfl
  · cases hres
    intro e he
    refine timerInv_endGame_out now "spy" none s room _ _ ?_ hg ?_ hinv e he
    · exact hsub
    · rfl

theorem timerInv_fireTimer (now : Nat) (s : Server) (tid : Nat)
    (s2 : Server) (es : List SpyEmit)
    (hfire : fireTimer now s tid = some (s2, es)) (hinv : timerInv s) :
    timerInv s2 := by
  cases hfind : s.tctx.pending.find? (fun e => e.tid = tid) with
  | none =>
    simp only [fireTimer, hfind] at hfire
    cases hfire
  | some e0 =>
    simp only [fireTimer, hfind] at hfire
    cases hgr : getRoom s.rooms e0.roomId with
    | none =>
      simp only [hgr] at hfire
      cases hfire
      intro e he
      have hmem := List.mem_of_mem_filter he
      exact hinv e hmem
    | some room =>
      simp only [hgr] at hfire
      have hg : getRoom s.rooms room.id = some room := by
        rw [getRoom_id s.rooms e0.roomId room hgr]
        exact hgr
      split at hfire
      · cases hfire
        intro e he
        refine timerInv_startVoting_out now s room _ _ ?_ hg ?_ hinv e he
        · intro e2 he2 hd hv
          exact ⟨List.mem_of_mem_filter he2, hd, hv⟩
        · rfl
      · split at hfire
        · cases hfire
        · rename_i out hres
          cases hfire
          intro e he
          refine timerInv_resolveVoting now s room _ out ?_ hg hres hinv e he
          exact fun e2 he2 => List.mem_of_mem_filter he2

/-- C9: timer cancellation discipline.  `timerInv` (every pending timer
points at an existing room that still stores its handle and is in the
timer's phase) is preserved by every handler and timer callback; after a
host reset or a deletion-by-last-disconnect no pending timer for that room
remains, so no previously scheduled timer for it can ever fire; firing a
cancelled (non-pending) handle is a no-op; and a timer that does fire
operates on an existing room whose phase matches the timer's originating
phase. -/
theorem timer_cancellation_safe (s : Server) (hinv : timerInv s) :
    (∀ sid rid uname pair, getRoom s.rooms rid = none →
      timerInv (createLobby s sid rid uname pair).1) ∧
    (∀ sid rid uname, timerInv (joinLobby s sid rid uname).1) ∧
    (∀ sid tgt, timerInv (castVote s sid tgt)) ∧
    (∀ now sid idx, timerInv (startGame now s sid idx).1) ∧
    (∀ sid pair, timerInv (resetGame s sid pair).1) ∧
    (∀ sid, timerInv (disconnect s sid).1) ∧
    (∀ now tid s2 es, fireTimer now s tid = some (s2, es) → timerInv s2) ∧
    (∀ sid pair room, currentRoom s sid = some room → sid = room.hostId →
      ∀ e ∈ ((resetGame s sid pair).1).tctx.pending, e.roomId ≠ room.id) ∧
    (∀ sid room, currentRoom s sid = some room →
      (room.players.filter (fun p => p.id ≠ sid)).length = 0 →
      (room.spectators.filter (fun p => p.id ≠ sid)).length = 0 →
      getRoom ((disconnect s sid).1).rooms room.id = none ∧
      ∀ e ∈ ((disconnect s sid).1).tctx.pending, e.roomId ≠ room.id) ∧
    (∀ now tid, (∀ e ∈ s.tctx.pending, e.tid ≠ tid) →
      fireTimer now s tid = none) ∧
    (∀ e ∈ s.tctx.pending,
      (e.kind = TKind.discussion → ∃ r, getRoom s.rooms e.roomId = some r ∧
        r.timers.discussion = some e.tid ∧ r.phase = Phase.playing) ∧
      (e.kind = TKind.voting → ∃ r, getRoom s.rooms e.roomId = some r ∧
        r.timers.voting = some e.tid ∧ r.phase = Phase.voting)) := by
  refine ⟨fun sid rid uname pair hf =>
      timerInv_createLobby s sid rid uname pair hf hinv,
    fun sid rid uname => timerInv_joinLobby s sid rid uname hinv,
    fun sid tgt => timerInv_castVote s sid tgt hinv,
    fun now sid idx => timerInv_startGame now s sid idx hinv,
    fun sid pair => timerInv_resetGame s sid pair hinv,
    fun sid => timerInv_disconnect s sid hinv,
    fun now tid s2 es hf => timerInv_fireTimer now s tid s2 es hf hinv,
    ?_, ?_, ?_, ?_⟩
  · intro sid pair room hcur hhost e he
    have hne : ¬ sid ≠ room.hostId := by simp [hhost]
    simp only [resetGame, hcur, if_neg hne, clearTimers] at he
    have hmem := List.mem_filter.mp he
    have hcl := of_decide_eq_true hmem.2
    have hg := currentRoom_getRoom s sid room hcur
    exact pending_not_for_room s.rooms room hg e (hinv e hmem.1) hcl
  · intro sid room hcur hp0 hs0
    have hg := currentRoom_getRoom s sid room hcur
    constructor
    · simp only [disconnect, hcur]
      rw [if_pos (And.intro hp0 hs0)]
      show getRoom (delRoom s.rooms room.id) room.id = none
      rw [getRoom_delRoom, if_pos rfl]
    · intro e he
      simp only [disconnect, hcur] at he
      rw [if_pos (And.intro hp0 hs0)] at he
      simp only [clearTimers] at he
      have hmem := List.mem_filter.mp he
      have hcl := of_decide_eq_true hmem.2
      exact pending_not_for_room s.rooms room hg e (hinv e hmem.1) hcl
  · intro now tid hnone
    have hfind : s.tctx.pending.find? (fun e => e.tid = tid) = none := by
      rw [List.find?_eq_none]
      intro x hx
      simp only [decide_eq_true_eq]
      exact hnone x hx
    simp only [fireTimer, hfind]
  · intro e he
    have hok := hinv e he
    obtain ⟨etid, erid, ekind⟩ := e
    cases hgr : getRoom s.rooms erid with
    | none =>
      exfalso
      cases ekind <;> simp [timerOk, hgr] at hok
    | some r =>
      cases ekind
      · refine ⟨fun _ => ⟨r, rfl, ?_, ?_⟩, fun hh => TKind.noConfusion hh⟩
        · simp [timerOk, hgr] at hok
          exact hok.1
        · simp [timerOk, hgr] at hok
          exact hok.2
      · refine ⟨fun hh => TKind.noConfusion hh, fun _ => ⟨r, rfl, ?_, ?_⟩⟩
        · simp [timerOk, hgr] at hok
          exact hok.1
        · simp [timerOk, hgr] at hok
          exact hok.2

/-- A playing-phase room whose discussion timer (handle `0`) is pending. -/
def exRoom9 : Room :=
  { id := "r1", hostId := "s1",
    players := [⟨"s1", "a"⟩, ⟨"s2", "b"⟩, ⟨"s3", "c"⟩], spectators := [],
    spyId := some "s2", pair := ⟨"Airport", "Bus Station"⟩, round := 1,
    phase := Phase.playing, votes := [],
    timers := ⟨some 0, none⟩, phaseEndsAt := some 50 }

/-- Server holding `exRoom9` with its discussion timer armed. -/
def exS9 : Server :=
  { rooms := [exRoom9],
    socks := [("s1", some "r1"), ("s2", some "r1"), ("s3", some "r1")],
    tctx := ⟨[⟨0, "r1", TKind.discussion⟩], 1⟩ }

theorem timer_cancellation_safe_witness :
    ((resetGame exS9 "s1" ⟨"Beach", "Desert"⟩).1).tctx.pending.all
      (fun e => e.roomId ≠ exRoom9.id) = true := by
  rw [List.all_eq_true]
  intro e he
  simp only [decide_eq_true_eq]
  exact (timer_cancellation_safe exS9
      (by unfold timerInv; decide)).2.2.2.2.2.2.2.1
    "s1" ⟨"Beach", "Desert"⟩ exRoom9 rfl rfl e he

end NodeServer
